import Mathlib

set_option linter.unusedVariables false

/-!
# Verification of the inFlow Inventory polling trigger

Shallow embedding of `src/nodes/InFlowInventory/InFlowInventoryTrigger.node.ts`:
the polling-based change detector that fetches snapshots of remote collections,
diffs them against checkpoint state held in `webhookData`, and emits events.

Modelling conventions:
* Timestamps (`lastPollTime`, `updatedAt`, `now`) are `Nat` milliseconds; the
  TypeScript code stores ISO strings and compares them through `new Date`, which
  is order-isomorphic to comparing the underlying millisecond values.  A missing
  or falsy (`undefined` / empty / unparsable) `updatedAt` is `none`.
* A JavaScript object used as a string-keyed map is an association list built by
  repeated `objSet` (assignment `obj[k] = v`), looked up with `objGet`
  (property access, `none` = `undefined`).
* The result of one `inFlowApiRequest` call is a `FetchResult`: it either threw
  (`throw'`), returned a non-array value (`notArray`), or returned an array.
* Helper functions that can propagate an exception return `Except Unit _`;
  `detectChanges`' `try/catch` maps `.error` to "no events, state untouched".
-/

namespace InFlow

/-- A normalized remote record as the trigger reads it: `entityId`, `status`
and `updatedAt` fields of the raw item (absent fields are `none`/`""`). -/
structure Item where
  entityId : String
  status : String
  updatedAt : Option Nat
deriving DecidableEq, Repr

/-- A row of the `/reports/inventorySummary` report: `productId`,
`quantityOnHand` and the `product` payload (kept as an opaque string). -/
structure InvItem where
  productId : String
  quantityOnHand : Int
  product : String
deriving DecidableEq, Repr

/-- Payload of an emitted event: either a pass-through snapshot item, or the
derived inventory-change record built by `pollInventoryChanges`. -/
inductive EventData where
  | item (it : Item)
  | inventory (product : String) (productId : String)
      (previousQuantity : Int) (currentQuantity : Int) (change : Int)
deriving DecidableEq, Repr

/-- An emitted event `{ json: { event, data } }`. -/
structure Event where
  event : String
  data : EventData
deriving DecidableEq, Repr

/-- Outcome of one `inFlowApiRequest` call. -/
inductive FetchResult (α : Type) where
  | throw'
  | notArray
  | ok (items : List α)
deriving DecidableEq, Repr

/-- A JavaScript object used as a string-keyed map. -/
abbrev JMap (α : Type) := List (String × α)

/-- Property access `m[k]`; `none` plays `undefined`. -/
def objGet (m : JMap α) (k : String) : Option α :=
  (m.find? (fun p => p.1 = k)).map (fun p => p.2)

/-- Assignment `m[k] = v`: overwrites in place if the key exists, else appends. -/
def objSet (m : JMap α) (k : String) (v : α) : JMap α :=
  if m.any (fun p => p.1 = k) then
    m.map (fun p => if p.1 = k then (k, v) else p)
  else
    m ++ [(k, v)]

/-- JavaScript truthiness of a possibly-undefined string: `undefined` and the
empty string are falsy. -/
def strTruthy : Option String → Bool
  | none => false
  | some s => s ≠ ""

/-- The `webhookData` static-data blob (the Checkpoint).  Fields the code
reads with `(webhookData.x as T) || default` default to the empty value, so a
never-written field and a field holding the empty value are identified. -/
structure WebhookData where
  lastPollTime : Option Nat := none
  knownIds : List String := []
  salesOrderIds : List String := []
  salesOrderStatuses : JMap String := []
  purchaseOrderIds : List String := []
  purchaseOrderStatuses : JMap String := []
  stockAdjustmentIds : List String := []
  stockTransferStatuses : JMap String := []
  inventorySnapshot : JMap Int := []
deriving DecidableEq, Repr

/-- The node's `options` collection; `""` is the unset (falsy) default. -/
structure Options where
  locationId : String := ""
  categoryId : String := ""
deriving DecidableEq, Repr

/-- The fetch outcomes available to one poll cycle: the resource collection
endpoint for the watched event, and the inventory-summary report. -/
structure Env where
  items : FetchResult Item := .notArray
  inventory : FetchResult InvItem := .notArray
deriving DecidableEq, Repr

/-- Split a character list at every `'.'` (helper for `splitDot`). -/
def splitDotAux (acc : List Char) : List Char → List (List Char)
  | [] => [acc.reverse]
  | c :: cs =>
    if c = '.' then acc.reverse :: splitDotAux [] cs
    else splitDotAux (c :: acc) cs

/-- JavaScript `event.split('.')`. -/
def splitDot (s : String) : List String :=
  (splitDotAux [] s.data).map List.asString

/-- `getEndpointForEvent` (lines 45–58). -/
def getEndpointForEvent (event : String) : Option String :=
  if event = "product.created" then some "/products"
  else if event = "product.updated" then some "/products"
  else if event = "salesOrder.created" then some "/salesOrders"
  else if event = "salesOrder.updated" then some "/salesOrders"
  else if event = "salesOrder.fulfilled" then some "/salesOrders"
  else if event = "purchaseOrder.created" then some "/purchaseOrders"
  else if event = "purchaseOrder.received" then some "/purchaseOrders"
  else if event = "stockAdjustment.created" then some "/stockAdjustments"
  else if event = "stockTransfer.completed" then some "/stockTransfers"
  else none

/-- `initializePollingState` (lines 19–43): if the event maps to an endpoint,
fetch it and store the snapshot's `entityId`s into `webhookData.knownIds`
(on a throw store `[]`; on a non-array response store nothing). -/
def initializePollingState (event : String) (wd : WebhookData) (env : Env) :
    WebhookData :=
  match getEndpointForEvent event with
  | none => wd
  | some _ =>
    match env.items with
    | .throw' => { wd with knownIds := [] }
    | .notArray => wd
    | .ok items => { wd with knownIds := items.map (·.entityId) }

/-- `pollProducts` (lines 60–113).  The `for` loop pushing at most one event
per product is rendered as `filterMap`; `webhookData.knownIds` is replaced by
the snapshot's ids whenever the response is an array. -/
def pollProducts (actionType : String) (lastPollTime : Nat) (wd : WebhookData)
    (fetch : FetchResult Item) : Except Unit (List Event × WebhookData) :=
  match fetch with
  | .throw' => .error ()
  | .notArray => .ok ([], wd)
  | .ok products =>
    let knownIds := wd.knownIds
    let currentIds := products.map (·.entityId)
    let events : List Event :=
      if actionType = "created" then
        (products.filter (fun p => ¬ knownIds.contains p.entityId)).map
          (fun p => { event := "product.created", data := .item p })
      else if actionType = "updated" then
        products.filterMap (fun p =>
          match p.updatedAt with
          | some u =>
            if lastPollTime < u then
              if knownIds.contains p.entityId then
                some { event := "product.updated", data := .item p }
              else none
            else none
          | none => none)
      else []
    .ok (events, { wd with knownIds := currentIds })

/-- `pollSalesOrders` (lines 115–185).  `currentStatuses` is built by the same
assignments the loop performs; emission only ever reads the pre-loop
`knownStatuses`, so hoisting the map construction is behaviour-preserving. -/
def pollSalesOrders (actionType : String) (lastPollTime : Nat) (wd : WebhookData)
    (fetch : FetchResult Item) : Except Unit (List Event × WebhookData) :=
  match fetch with
  | .throw' => .error ()
  | .notArray => .ok ([], wd)
  | .ok orders =>
    let knownIds := wd.salesOrderIds
    let knownStatuses := wd.salesOrderStatuses
    let currentIds := orders.map (·.entityId)
    let currentStatuses : JMap String :=
      orders.foldl (fun m o => objSet m o.entityId o.status) []
    let events : List Event :=
      orders.filterMap (fun o =>
        if actionType = "created" then
          if ¬ knownIds.contains o.entityId then
            some { event := "salesOrder.created", data := .item o }
          else none
        else if actionType = "updated" then
          if knownIds.contains o.entityId then
            match o.updatedAt with
            | some u =>
              if lastPollTime < u then
                some { event := "salesOrder.updated", data := .item o }
              else none
            | none => none
          else none
        else if actionType = "fulfilled" then
          if o.status = "Fulfilled" ∧
             strTruthy (objGet knownStatuses o.entityId) ∧
             objGet knownStatuses o.entityId ≠ some "Fulfilled" then
            some { event := "salesOrder.fulfilled", data := .item o }
          else none
        else none)
    .ok (events,
      { wd with salesOrderIds := currentIds, salesOrderStatuses := currentStatuses })

/-- `pollPurchaseOrders` (lines 187–244). -/
def pollPurchaseOrders (actionType : String) (wd : WebhookData)
    (fetch : FetchResult Item) : Except Unit (List Event × WebhookData) :=
  match fetch with
  | .throw' => .error ()
  | .notArray => .ok ([], wd)
  | .ok orders =>
    let knownIds := wd.purchaseOrderIds
    let knownStatuses := wd.purchaseOrderStatuses
    let currentIds := orders.map (·.entityId)
    let currentStatuses : JMap String :=
      orders.foldl (fun m o => objSet m o.entityId o.status) []
    let events : List Event :=
      orders.filterMap (fun o =>
        if actionType = "created" then
          if ¬ knownIds.contains o.entityId then
            some { event := "purchaseOrder.created", data := .item o }
          else none
        else if actionType = "received" then
          if (o.status = "Received" ∨ o.status = "PartiallyReceived") ∧
             objGet knownStatuses o.entityId = some "Open" then
            some { event := "purchaseOrder.received", data := .item o }
          else none
        else none)
    .ok (events,
      { wd with purchaseOrderIds := currentIds,
                purchaseOrderStatuses := currentStatuses })

/-- `pollStockAdjustments` (lines 246–282): a pure created-detector over the
dedicated `stockAdjustmentIds` set (the source ignores the action type). -/
def pollStockAdjustments (wd : WebhookData) (fetch : FetchResult Item) :
    Except Unit (List Event × WebhookData) :=
  match fetch with
  | .throw' => .error ()
  | .notArray => .ok ([], wd)
  | .ok adjustments =>
    let knownIds := wd.stockAdjustmentIds
    let currentIds := adjustments.map (·.entityId)
    let events : List Event :=
      (adjustments.filter (fun a => ¬ knownIds.contains a.entityId)).map
        (fun a => { event := "stockAdjustment.created", data := .item a })
    .ok (events, { wd with stockAdjustmentIds := currentIds })

/-- `pollStockTransfers` (lines 284–325): tracks only a status map. -/
def pollStockTransfers (actionType : String) (wd : WebhookData)
    (fetch : FetchResult Item) : Except Unit (List Event × WebhookData) :=
  match fetch with
  | .throw' => .error ()
  | .notArray => .ok ([], wd)
  | .ok transfers =>
    let knownStatuses := wd.stockTransferStatuses
    let currentStatuses : JMap String :=
      transfers.foldl (fun m t => objSet m t.entityId t.status) []
    let events : List Event :=
      transfers.filterMap (fun t =>
        if actionType = "completed" then
          if t.status = "Completed" ∧ objGet knownStatuses t.entityId = some "Open" then
            some { event := "stockTransfer.completed", data := .item t }
          else none
        else none)
    .ok (events, { wd with stockTransferStatuses := currentStatuses })

/-- `pollInventoryChanges` (lines 327–380): diffs the inventory report against
`inventorySnapshot` and emits the derived delta payload. -/
def pollInventoryChanges (wd : WebhookData) (fetch : FetchResult InvItem) :
    Except Unit (List Event × WebhookData) :=
  match fetch with
  | .throw' => .error ()
  | .notArray => .ok ([], wd)
  | .ok inventory =>
    let knownInventory := wd.inventorySnapshot
    let currentInventory : JMap Int :=
      inventory.foldl (fun m it => objSet m it.productId it.quantityOnHand) []
    let events : List Event :=
      inventory.filterMap (fun it =>
        match objGet knownInventory it.productId with
        | some prev =>
          if prev ≠ it.quantityOnHand then
            some { event := "inventory.changed",
                   data := .inventory it.product it.productId prev
                     it.quantityOnHand (it.quantityOnHand - prev) }
          else none
        | none => none)
    .ok (events, { wd with inventorySnapshot := currentInventory })

/-- `detectChanges` (lines 382–431): split the event at the dot, dispatch on
the resource type (the switch has no default case), and catch any exception,
returning the events accumulated so far (none) with the state untouched. -/
def detectChanges (event : String) (options : Options) (lastPollTime : Nat)
    (wd : WebhookData) (env : Env) : List Event × WebhookData :=
  let parts := splitDot event
  let resourceType := parts.headD ""
  let actionType := (parts[1]?).getD ""
  let res : Except Unit (List Event × WebhookData) :=
    if resourceType = "product" then
      pollProducts actionType lastPollTime wd env.items
    else if resourceType = "salesOrder" then
      pollSalesOrders actionType lastPollTime wd env.items
    else if resourceType = "purchaseOrder" then
      pollPurchaseOrders actionType wd env.items
    else if resourceType = "stockAdjustment" then
      pollStockAdjustments wd env.items
    else if resourceType = "stockTransfer" then
      pollStockTransfers actionType wd env.items
    else if resourceType = "inventory" then
      pollInventoryChanges wd env.inventory
    else .ok ([], wd)
  match res with
  | .ok r => r
  | .error _ => ([], wd)

/-- `InFlowInventoryTrigger.poll` (lines 540–567).  Note the order of
operations: `lastPollTime` is overwritten with `now` *before* the bootstrap
check and before change detection. -/
def poll (event : String) (options : Options) (wd : WebhookData) (now : Nat)
    (env : Env) : Option (List Event) × WebhookData :=
  let lastPollTime := wd.lastPollTime
  let wd1 : WebhookData := { wd with lastPollTime := some now }
  match lastPollTime with
  | none => (none, initializePollingState event wd1 env)
  | some t =>
    let r := detectChanges event options t wd1 env
    if r.1.isEmpty then (none, r.2) else (some r.1, r.2)

/-- The events of a poll-cycle result; `null` and the empty list both mean
"no downstream dispatch" (spec §6). -/
def pollEvents (r : Option (List Event) × WebhookData) : List Event :=
  r.1.getD []

/-- Events of a helper-poller result; an uncaught exception yields none. -/
def evs (r : Except Unit (List Event × WebhookData)) : List Event :=
  match r with
  | .ok p => p.1
  | .error _ => []

/-- Post-state of a helper-poller result, as `detectChanges`' caller sees it:
on an exception the pre-state `wd` survives. -/
def postState (wd : WebhookData) (r : Except Unit (List Event × WebhookData)) :
    WebhookData :=
  match r with
  | .ok p => p.2
  | .error _ => wd

/-- The query object handed to `inFlowApiRequest` by the snapshot fetch that
`detectChanges` performs for the given event, read off the call sites
(lines 69–75, 125–131, 197–203, 253–259, 292–298 and 335–346): every resource
poller sends `{ count: 50 }`; `pollInventoryChanges` sends `{ locationId }`
when `options.locationId` is truthy and `{}` otherwise.  `none` when no switch
case matches and no fetch happens. -/
structure Query where
  count : Option Nat
  locationId : Option String
  categoryId : Option String
deriving DecidableEq, Repr

/-- See `Query`. -/
def detectChangesQuery (event : String) (options : Options) : Option Query :=
  let resourceType := (splitDot event).headD ""
  if resourceType = "product" ∨ resourceType = "salesOrder" ∨
     resourceType = "purchaseOrder" ∨ resourceType = "stockAdjustment" ∨
     resourceType = "stockTransfer" then
    some { count := some 50, locationId := none, categoryId := none }
  else if resourceType = "inventory" then
    some { count := none,
           locationId := if options.locationId ≠ "" then some options.locationId else none,
           categoryId := none }
  else none

/-- The product id carried by an `inventory.changed` payload (`none` for
pass-through item payloads). -/
def EventData.invProductId : EventData → Option String
  | .item _ => none
  | .inventory _ pid _ _ _ => some pid

/-! ## Properties of the JavaScript-object map model -/

/-- JS assignment then lookup: `objSet` updates exactly the assigned key. -/
theorem objGet_objSet (m : JMap β) (k : String) (v : β) (q : String) :
    objGet (objSet m k v) q = if k = q then some v else objGet m q := by
  unfold objSet objGet
  by_cases h : m.any (fun p => p.1 = k) = true
  · rw [if_pos h, List.find?_map]
    have hpred : ((fun p : String × β => decide (p.1 = q)) ∘
        (fun p => if p.1 = k then (k, v) else p)) =
        fun p : String × β => decide (p.1 = q) := by
      funext p
      by_cases hpk : p.1 = k <;> simp [hpk]
    rw [hpred]
    cases hf : m.find? (fun p : String × β => decide (p.1 = q)) with
    | none =>
      have hq : ¬ k = q := by
        intro hkq
        subst hkq
        obtain ⟨p, hp, hpk⟩ := List.any_eq_true.mp h
        exact absurd hpk (by simpa using List.find?_eq_none.mp hf p hp)
      simp [hq]
    | some p =>
      have hpq : p.1 = q := by simpa using List.find?_some hf
      by_cases hkq : k = q
      · subst hkq
        simp [hpq]
      · have hpk : ¬ p.1 = k := fun hpk => hkq (hpk ▸ hpq)
        simp [hkq, hpk]
  · rw [if_neg h]
    have hnone : m.find? (fun p : String × β => decide (p.1 = k)) = none := by
      rw [List.find?_eq_none]
      intro p hp hpk
      exact h (List.any_eq_true.mpr ⟨p, hp, hpk⟩)
    rw [List.find?_append]
    by_cases hkq : k = q
    · subst hkq
      simp [hnone, List.find?]
    · cases hf : m.find? (fun p : String × β => decide (p.1 = q)) with
      | some p => simp [hf, hkq]
      | none => simp [hf, List.find?, hkq]

/-- Rebuilding a map by a fold of JS assignments: the final lookup returns the
value of the last element carrying the key, falling back to the initial map. -/
theorem objGet_foldl_objSet (f : α → String) (g : α → β) (l : List α)
    (m : JMap β) (k : String) :
    objGet (l.foldl (fun acc a => objSet acc (f a) (g a)) m) k =
      (l.reverse.find? (fun a => f a = k)).elim (objGet m k) (fun a => some (g a)) := by
  induction l generalizing m with
  | nil => simp
  | cons a l ih =>
    rw [List.foldl_cons, ih, List.reverse_cons, List.find?_append]
    cases h : l.reverse.find? (fun x => decide (f x = k)) with
    | some b => simp [h]
    | none =>
      simp only [h, Option.none_orElse, List.find?, objGet_objSet]
      by_cases hak : f a = k
      · simp [hak]
      · simp [hak]

/-- The common special case: the checkpoint map is rebuilt from scratch. -/
theorem objGet_buildMap (f : α → String) (g : α → β) (l : List α) (k : String) :
    objGet (l.foldl (fun acc a => objSet acc (f a) (g a)) []) k =
      (l.reverse.find? (fun a => f a = k)).map g := by
  rw [objGet_foldl_objSet]
  cases l.reverse.find? (fun a => decide (f a = k)) <;> simp [objGet]

/-! ## Reduction lemmas: each poller's event list in closed form -/

theorem pollSalesOrders_fulfilled_evs (wd : WebhookData) (t : Nat)
    (orders : List Item) :
    evs (pollSalesOrders "fulfilled" t wd (.ok orders)) =
      orders.filterMap (fun o =>
        if o.status = "Fulfilled" ∧
            strTruthy (objGet wd.salesOrderStatuses o.entityId) ∧
            objGet wd.salesOrderStatuses o.entityId ≠ some "Fulfilled" then
          some { event := "salesOrder.fulfilled", data := .item o }
        else none) := by
  simp [evs, pollSalesOrders]

theorem pollProducts_created_evs (wd : WebhookData) (t : Nat)
    (products : List Item) :
    evs (pollProducts "created" t wd (.ok products)) =
      (products.filter (fun p => ¬ wd.knownIds.contains p.entityId)).map
        (fun p => { event := "product.created", data := .item p }) := by
  simp [evs, pollProducts]

theorem pollProducts_updated_evs (wd : WebhookData) (t : Nat)
    (products : List Item) :
    evs (pollProducts "updated" t wd (.ok products)) =
      products.filterMap (fun p =>
        match p.updatedAt with
        | some u =>
          if t < u then
            if wd.knownIds.contains p.entityId then
              some { event := "product.updated", data := .item p }
            else none
          else none
        | none => none) := by
  simp [evs, pollProducts]

theorem pollSalesOrders_updated_evs (wd : WebhookData) (t : Nat)
    (orders : List Item) :
    evs (pollSalesOrders "updated" t wd (.ok orders)) =
      orders.filterMap (fun o =>
        if wd.salesOrderIds.contains o.entityId then
          match o.updatedAt with
          | some u =>
            if t < u then
              some { event := "salesOrder.updated", data := .item o }
            else none
          | none => none
        else none) := by
  simp [evs, pollSalesOrders]

/-! ## The claims -/

/-- **C3** — Status-transition exactness for `salesOrder.fulfilled`: in a
non-bootstrap cycle an event is emitted for a snapshot item iff its new status
is "Fulfilled", the checkpoint recorded a truthy previous status for its id,
and that previous status was not "Fulfilled"; in particular nothing fires for
an id first seen already "Fulfilled" or whose recorded status is `""`. -/
theorem salesOrder_fulfilled_exactness (wd : WebhookData) (t : Nat)
    (orders : List Item) (o : Item) (ho : o ∈ orders) :
    ({ event := "salesOrder.fulfilled", data := .item o } : Event) ∈
        evs (pollSalesOrders "fulfilled" t wd (.ok orders)) ↔
      (o.status = "Fulfilled" ∧
        ∃ s, objGet wd.salesOrderStatuses o.entityId = some s ∧
          s ≠ "" ∧ s ≠ "Fulfilled") := by
  rw [pollSalesOrders_fulfilled_evs, List.mem_filterMap]
  constructor
  · rintro ⟨a, ha, hsome⟩
    split_ifs at hsome with hc
    · obtain ⟨hst, htr, hne⟩ := hc
      have hao : a = o := by
        simpa [Event.mk.injEq, EventData.item.injEq] using hsome
      subst hao
      refine ⟨hst, ?_⟩
      cases hget : objGet wd.salesOrderStatuses a.entityId with
      | none => rw [hget] at htr; exact absurd htr (by simp [strTruthy])
      | some s =>
        rw [hget] at htr hne
        refine ⟨s, rfl, by simpa [strTruthy] using htr, ?_⟩
        intro hsf
        exact hne (by rw [hsf])
  · rintro ⟨hst, s, hget, hs1, hs2⟩
    refine ⟨o, ho, ?_⟩
    rw [if_pos ⟨hst, by simp [hget, strTruthy, hs1], by simp [hget, hs2]⟩]

/-- Witness for `salesOrder_fulfilled_exactness`: an order moving from a
recorded "Open" to "Fulfilled" does emit. -/
theorem salesOrder_fulfilled_exactness_witness :
    ({ event := "salesOrder.fulfilled",
       data := .item ⟨"SO9", "Fulfilled", none⟩ } : Event) ∈
      evs (pollSalesOrders "fulfilled" 5
        { salesOrderStatuses := [("SO9", "Open")] }
        (.ok [⟨"SO9", "Fulfilled", none⟩])) :=
  (salesOrder_fulfilled_exactness { salesOrderStatuses := [("SO9", "Open")] } 5
    [⟨"SO9", "Fulfilled", none⟩] ⟨"SO9", "Fulfilled", none⟩ (by decide)).mpr
    ⟨rfl, "Open", by decide, by decide, by decide⟩

/-- **C4** — Created-event semantics: in a non-bootstrap cycle a
`<resource>.created` event is emitted exactly for the snapshot items whose id
is not in the tracked id set; afterwards the tracked set is fully replaced by
the snapshot's ids, so re-polling an identical snapshot emits nothing.  Shown
for `pollProducts` (with the exactly-once count under distinct snapshot ids)
and for `pollStockAdjustments`' dedicated id set. -/
theorem created_event_semantics :
    (∀ (wd : WebhookData) (t : Nat) (products : List Item) (p : Item),
      p ∈ products →
      (({ event := "product.created", data := .item p } : Event) ∈
          evs (pollProducts "created" t wd (.ok products)) ↔
        p.entityId ∉ wd.knownIds)) ∧
    (∀ (wd : WebhookData) (t : Nat) (products : List Item),
      postState wd (pollProducts "created" t wd (.ok products)) =
        { wd with knownIds := products.map (·.entityId) }) ∧
    (∀ (wd : WebhookData) (t t' : Nat) (products : List Item),
      evs (pollProducts "created" t'
        (postState wd (pollProducts "created" t wd (.ok products)))
        (.ok products)) = []) ∧
    (∀ (wd : WebhookData) (t : Nat) (products : List Item) (p : Item),
      p ∈ products → (products.map (·.entityId)).Nodup →
      p.entityId ∉ wd.knownIds →
      (evs (pollProducts "created" t wd (.ok products))).count
        { event := "product.created", data := .item p } = 1) ∧
    (∀ (wd : WebhookData) (adjustments : List Item) (a : Item),
      a ∈ adjustments →
      (({ event := "stockAdjustment.created", data := .item a } : Event) ∈
          evs (pollStockAdjustments wd (.ok adjustments)) ↔
        a.entityId ∉ wd.stockAdjustmentIds)) ∧
    (∀ (wd : WebhookData) (adjustments : List Item),
      postState wd (pollStockAdjustments wd (.ok adjustments)) =
        { wd with stockAdjustmentIds := adjustments.map (·.entityId) }) := by
  have hinj : Function.Injective
      (fun p : Item => ({ event := "product.created", data := .item p } : Event)) := by
    intro a b h
    simpa [Event.mk.injEq, EventData.item.injEq] using h
  refine ⟨?_, ?_, ?_, ?_, ?_, ?_⟩
  · intro wd t products p hp
    rw [pollProducts_created_evs]
    simp only [List.mem_map, List.mem_filter]
    constructor
    · rintro ⟨q, ⟨hq, hpred⟩, heq⟩
      have hqp : q = p := hinj heq
      subst hqp
      simpa using hpred
    · intro hniq
      exact ⟨p, ⟨hp, by simpa using hniq⟩, rfl⟩
  · intro wd t products
    simp [postState, pollProducts]
  · intro wd t t' products
    have hpost : postState wd (pollProducts "created" t wd (.ok products)) =
        { wd with knownIds := products.map (·.entityId) } := by
      simp [postState, pollProducts]
    rw [hpost, pollProducts_created_evs]
    rw [List.map_eq_nil_iff, List.filter_eq_nil_iff]
    intro p hp
    simp [List.mem_map]
    exact ⟨p, hp, rfl⟩
  · intro wd t products p hp hnodup hnew
    rw [pollProducts_created_evs]
    rw [List.count_map_of_injective _ _ hinj]
    rw [List.count_filter (by simpa using hnew)]
    exact List.count_eq_one_of_mem (hnodup.of_map _) hp
  · intro wd adjustments a ha
    have hevs : evs (pollStockAdjustments wd (.ok adjustments)) =
        (adjustments.filter
          (fun x => ¬ wd.stockAdjustmentIds.contains x.entityId)).map
          (fun x => { event := "stockAdjustment.created", data := .item x }) := by
      simp [evs, pollStockAdjustments]
    rw [hevs]
    simp only [List.mem_map, List.mem_filter]
    constructor
    · rintro ⟨q, ⟨hq, hpred⟩, heq⟩
      have hqa : q = a := by
        simpa [Event.mk.injEq, EventData.item.injEq] using heq
      subst hqa
      simpa using hpred
    · intro hniq
      exact ⟨a, ⟨ha, by simpa using hniq⟩, rfl⟩
  · intro wd adjustments
    simp [postState, pollStockAdjustments]

/-- Witness for `created_event_semantics`: an unknown id emits `created`. -/
theorem created_event_semantics_witness :
    ({ event := "product.created", data := .item ⟨"N1", "", none⟩ } : Event) ∈
      evs (pollProducts "created" 0 { knownIds := ["O1"] }
        (.ok [⟨"N1", "", none⟩])) :=
  (created_event_semantics.1 { knownIds := ["O1"] } 0 [⟨"N1", "", none⟩]
    ⟨"N1", "", none⟩ (by decide)).mpr (by decide)

/-- **C5** — Updated-event semantics with first-sight suppression: in a
non-bootstrap cycle an `updated` event is emitted for a snapshot item iff its
id is already tracked AND its `updatedAt` is present and strictly after
`lastPollTime`; an untracked id emits no `updated` event even with a
qualifying timestamp.  Shown for products and sales orders. -/
theorem updated_event_first_sight_suppression :
    (∀ (wd : WebhookData) (t : Nat) (products : List Item) (p : Item),
      p ∈ products →
      (({ event := "product.updated", data := .item p } : Event) ∈
          evs (pollProducts "updated" t wd (.ok products)) ↔
        (p.entityId ∈ wd.knownIds ∧ ∃ u, p.updatedAt = some u ∧ t < u))) ∧
    (∀ (wd : WebhookData) (t : Nat) (orders : List Item) (o : Item),
      o ∈ orders →
      (({ event := "salesOrder.updated", data := .item o } : Event) ∈
          evs (pollSalesOrders "updated" t wd (.ok orders)) ↔
        (o.entityId ∈ wd.salesOrderIds ∧ ∃ u, o.updatedAt = some u ∧ t < u))) := by
  constructor
  · intro wd t products p hp
    rw [pollProducts_updated_evs, List.mem_filterMap]
    constructor
    · rintro ⟨a, ha, hsome⟩
      cases hu : a.updatedAt with
      | none => rw [hu] at hsome; simp at hsome
      | some u =>
        rw [hu] at hsome
        dsimp only at hsome
        by_cases h1 : t < u
        · rw [if_pos h1] at hsome
          by_cases h2 : wd.knownIds.contains a.entityId = true
          · rw [if_pos h2] at hsome
            have hap : a = p := by
              simpa [Event.mk.injEq, EventData.item.injEq] using hsome
            subst hap
            exact ⟨by simpa using h2, u, hu, h1⟩
          · rw [if_neg h2] at hsome
            simp at hsome
        · rw [if_neg h1] at hsome
          simp at hsome
    · rintro ⟨hmem, u, hu, ht⟩
      refine ⟨p, hp, ?_⟩
      rw [hu]
      dsimp only
      rw [if_pos ht, if_pos (by simpa using hmem)]
  · intro wd t orders o ho
    rw [pollSalesOrders_updated_evs, List.mem_filterMap]
    constructor
    · rintro ⟨a, ha, hsome⟩
      by_cases h1 : wd.salesOrderIds.contains a.entityId = true
      · rw [if_pos h1] at hsome
        cases hu : a.updatedAt with
        | none => rw [hu] at hsome; simp at hsome
        | some u =>
          rw [hu] at hsome
          dsimp only at hsome
          by_cases h2 : t < u
          · rw [if_pos h2] at hsome
            have hao : a = o := by
              simpa [Event.mk.injEq, EventData.item.injEq] using hsome
            subst hao
            exact ⟨by simpa using h1, u, hu, h2⟩
          · rw [if_neg h2] at hsome
            simp at hsome
      · rw [if_neg h1] at hsome
        simp at hsome
    · rintro ⟨hmem, u, hu, ht⟩
      refine ⟨o, ho, ?_⟩
      rw [if_pos (by simpa using hmem), hu]
      dsimp only
      rw [if_pos ht]

/-- Witness for `updated_event_first_sight_suppression`: a tracked id with a
fresh `updatedAt` emits `updated`. -/
theorem updated_event_first_sight_suppression_witness :
    ({ event := "product.updated", data := .item ⟨"P1", "", some 10⟩ } : Event) ∈
      evs (pollProducts "updated" 4 { knownIds := ["P1"] }
        (.ok [⟨"P1", "", some 10⟩])) :=
  (updated_event_first_sight_suppression.1 { knownIds := ["P1"] } 4
    [⟨"P1", "", some 10⟩] ⟨"P1", "", some 10⟩ (by decide)).mpr
    ⟨by decide, 10, rfl, by decide⟩

theorem pollPurchaseOrders_received_evs (wd : WebhookData)
    (orders : List Item) :
    evs (pollPurchaseOrders "received" wd (.ok orders)) =
      orders.filterMap (fun o =>
        if (o.status = "Received" ∨ o.status = "PartiallyReceived") ∧
            objGet wd.purchaseOrderStatuses o.entityId = some "Open" then
          some { event := "purchaseOrder.received", data := .item o }
        else none) := by
  simp [evs, pollPurchaseOrders]

theorem pollStockTransfers_completed_evs (wd : WebhookData)
    (transfers : List Item) :
    evs (pollStockTransfers "completed" wd (.ok transfers)) =
      transfers.filterMap (fun tr =>
        if tr.status = "Completed" ∧
            objGet wd.stockTransferStatuses tr.entityId = some "Open" then
          some { event := "stockTransfer.completed", data := .item tr }
        else none) := by
  simp [evs, pollStockTransfers]

theorem pollInventoryChanges_evs (wd : WebhookData) (inv : List InvItem) :
    evs (pollInventoryChanges wd (.ok inv)) =
      inv.filterMap (fun it =>
        match objGet wd.inventorySnapshot it.productId with
        | some prev =>
          if prev ≠ it.quantityOnHand then
            some { event := "inventory.changed",
                   data := .inventory it.product it.productId prev
                     it.quantityOnHand (it.quantityOnHand - prev) }
          else none
        | none => none) := by
  simp [evs, pollInventoryChanges]

/-- **C6** — Inventory delta correctness: in a non-bootstrap cycle, a report
row whose product has a recorded previous quantity emits `inventory.changed`
with `previousQuantity`, `currentQuantity` and `change = current - previous`
iff the quantity differs; products absent from the previous map emit nothing;
and the stored quantity map afterwards is exactly the snapshot's
product-to-quantity map (last row wins per product id). -/
theorem inventory_delta_correctness :
    (∀ (wd : WebhookData) (inv : List InvItem) (it : InvItem) (q : Int),
      it ∈ inv → objGet wd.inventorySnapshot it.productId = some q →
      (({ event := "inventory.changed",
          data := .inventory it.product it.productId q it.quantityOnHand
            (it.quantityOnHand - q) } : Event) ∈
          evs (pollInventoryChanges wd (.ok inv)) ↔ q ≠ it.quantityOnHand)) ∧
    (∀ (wd : WebhookData) (inv : List InvItem) (pid : String),
      objGet wd.inventorySnapshot pid = none →
      ∀ e ∈ evs (pollInventoryChanges wd (.ok inv)),
        EventData.invProductId e.data ≠ some pid) ∧
    (∀ (wd : WebhookData) (inv : List InvItem) (pid : String),
      objGet
        (postState wd (pollInventoryChanges wd (.ok inv))).inventorySnapshot
        pid =
      (inv.reverse.find? (fun a => a.productId = pid)).map (·.quantityOnHand)) := by
  refine ⟨?_, ?_, ?_⟩
  · intro wd inv it q hit hq
    rw [pollInventoryChanges_evs, List.mem_filterMap]
    constructor
    · rintro ⟨a, ha, hsome⟩
      cases hga : objGet wd.inventorySnapshot a.productId with
      | none => rw [hga] at hsome; simp at hsome
      | some prev =>
        rw [hga] at hsome
        dsimp only at hsome
        by_cases hne : prev ≠ a.quantityOnHand
        · rw [if_pos hne] at hsome
          simp only [Option.some.injEq, Event.mk.injEq,
            EventData.inventory.injEq] at hsome
          obtain ⟨-, -, hpid, hprev, hcur, -⟩ := hsome
          rw [← hpid] at hq
          rw [hga] at hq
          obtain rfl : prev = q := by simpa using hq
          rw [← hcur]
          exact hne
        · rw [if_neg hne] at hsome
          simp at hsome
    · intro hne
      refine ⟨it, hit, ?_⟩
      rw [hq]
      dsimp only
      rw [if_pos (Ne.symm (Ne.symm hne))]
  · intro wd inv pid hnone e he
    rw [pollInventoryChanges_evs, List.mem_filterMap] at he
    obtain ⟨a, ha, hsome⟩ := he
    cases hga : objGet wd.inventorySnapshot a.productId with
    | none => rw [hga] at hsome; simp at hsome
    | some prev =>
      rw [hga] at hsome
      dsimp only at hsome
      by_cases hne : prev ≠ a.quantityOnHand
      · rw [if_pos hne] at hsome
        have he : e = { event := "inventory.changed", data := EventData.inventory a.product a.productId prev a.quantityOnHand (a.quantityOnHand - prev) } := by
          simpa [eq_comm] using hsome
        subst he
        simp only [EventData.invProductId, ne_eq, Option.some.injEq]
        intro hpid
        rw [hpid] at hga
        rw [hga] at hnone
        exact Option.noConfusion hnone
      · rw [if_neg hne] at hsome
        simp at hsome
  · intro wd inv pid
    have hpost : postState wd (pollInventoryChanges wd (.ok inv)) =
        { wd with inventorySnapshot :=
            inv.foldl (fun m it => objSet m it.productId it.quantityOnHand) [] } := by
      simp [postState, pollInventoryChanges]
    rw [hpost]
    exact objGet_buildMap _ _ inv pid

/-- Witness for `inventory_delta_correctness` at the spec's own example:
previous map `{P1: 10}`, new report `{P1: 7, P2: 5}` emits the P1 delta. -/
theorem inventory_delta_correctness_witness :
    ({ event := "inventory.changed",
       data := .inventory "prodP1" "P1" 10 7 (-3) } : Event) ∈
      evs (pollInventoryChanges { inventorySnapshot := [("P1", 10)] }
        (.ok [⟨"P1", 7, "prodP1"⟩, ⟨"P2", 5, "prodP2"⟩])) :=
  (inventory_delta_correctness.1 { inventorySnapshot := [("P1", 10)] }
    [⟨"P1", 7, "prodP1"⟩, ⟨"P2", 5, "prodP2"⟩] ⟨"P1", 7, "prodP1"⟩ 10
    (by decide) (by decide)).mpr (by decide)

/-- **C7** — Open-predecessor requirement: `purchaseOrder.received` is
emitted only if the checkpoint recorded exactly "Open" for the order's id,
and `stockTransfer.completed` only if the new status is "Completed" and the
recorded previous status is exactly "Open". -/
theorem status_transition_requires_open_predecessor :
    (∀ (wd : WebhookData) (orders : List Item) (o : Item),
      ({ event := "purchaseOrder.received", data := .item o } : Event) ∈
          evs (pollPurchaseOrders "received" wd (.ok orders)) →
        objGet wd.purchaseOrderStatuses o.entityId = some "Open") ∧
    (∀ (wd : WebhookData) (transfers : List Item) (tr : Item),
      ({ event := "stockTransfer.completed", data := .item tr } : Event) ∈
          evs (pollStockTransfers "completed" wd (.ok transfers)) →
        tr.status = "Completed" ∧
          objGet wd.stockTransferStatuses tr.entityId = some "Open") := by
  constructor
  · intro wd orders o hmem
    rw [pollPurchaseOrders_received_evs, List.mem_filterMap] at hmem
    obtain ⟨a, ha, hsome⟩ := hmem
    by_cases hc : (a.status = "Received" ∨ a.status = "PartiallyReceived") ∧
        objGet wd.purchaseOrderStatuses a.entityId = some "Open"
    · rw [if_pos hc] at hsome
      have hao : a = o := by
        simpa [Event.mk.injEq, EventData.item.injEq] using hsome
      subst hao
      exact hc.2
    · rw [if_neg hc] at hsome
      simp at hsome
  · intro wd transfers tr hmem
    rw [pollStockTransfers_completed_evs, List.mem_filterMap] at hmem
    obtain ⟨a, ha, hsome⟩ := hmem
    by_cases hc : a.status = "Completed" ∧
        objGet wd.stockTransferStatuses a.entityId = some "Open"
    · rw [if_pos hc] at hsome
      have hao : a = tr := by
        simpa [Event.mk.injEq, EventData.item.injEq] using hsome
      subst hao
      exact hc
    · rw [if_neg hc] at hsome
      simp at hsome

/-- Witness for `status_transition_requires_open_predecessor`: concrete
emissions imply the recorded "Open" predecessors. -/
theorem status_transition_requires_open_predecessor_witness :
    objGet ([("PO1", "Open")] : JMap String) "PO1" = some "Open" ∧
    ("Completed" : String) = "Completed" ∧
      objGet ([("T1", "Open")] : JMap String) "T1" = some "Open" := by
  refine ⟨?_, ?_⟩
  · exact status_transition_requires_open_predecessor.1
      { purchaseOrderStatuses := [("PO1", "Open")] }
      [⟨"PO1", "Received", none⟩] ⟨"PO1", "Received", none⟩ (by decide)
  · have h := status_transition_requires_open_predecessor.2
      { stockTransferStatuses := [("T1", "Open")] }
      [⟨"T1", "Completed", none⟩] ⟨"T1", "Completed", none⟩ (by decide)
    exact ⟨h.1, h.2⟩

/-- **C10** — Partial receipt also fires: `purchaseOrder.received` is emitted
iff the new status is "Received" or "PartiallyReceived" and the recorded
previous status is exactly "Open"; hence an order moving
Open → PartiallyReceived → Received over two cycles emits exactly one
received event, on the first transition out of "Open". -/
theorem purchaseOrder_received_includes_partial :
    (∀ (wd : WebhookData) (orders : List Item) (o : Item), o ∈ orders →
      (({ event := "purchaseOrder.received", data := .item o } : Event) ∈
          evs (pollPurchaseOrders "received" wd (.ok orders)) ↔
        ((o.status = "Received" ∨ o.status = "PartiallyReceived") ∧
          objGet wd.purchaseOrderStatuses o.entityId = some "Open"))) ∧
    (∀ (wd : WebhookData) (eid : String) (u₁ u₂ : Option Nat),
      objGet wd.purchaseOrderStatuses eid = some "Open" →
      evs (pollPurchaseOrders "received" wd
          (.ok [⟨eid, "PartiallyReceived", u₁⟩])) =
        [{ event := "purchaseOrder.received",
           data := .item ⟨eid, "PartiallyReceived", u₁⟩ }] ∧
      evs (pollPurchaseOrders "received"
          (postState wd (pollPurchaseOrders "received" wd
            (.ok [⟨eid, "PartiallyReceived", u₁⟩])))
          (.ok [⟨eid, "Received", u₂⟩])) = []) := by
  constructor
  · intro wd orders o ho
    rw [pollPurchaseOrders_received_evs, List.mem_filterMap]
    constructor
    · rintro ⟨a, ha, hsome⟩
      by_cases hc : (a.status = "Received" ∨ a.status = "PartiallyReceived") ∧
          objGet wd.purchaseOrderStatuses a.entityId = some "Open"
      · rw [if_pos hc] at hsome
        have hao : a = o := by
          simpa [Event.mk.injEq, EventData.item.injEq] using hsome
        subst hao
        exact hc
      · rw [if_neg hc] at hsome
        simp at hsome
    · intro hc
      exact ⟨o, ho, by rw [if_pos hc]⟩
  · intro wd eid u₁ u₂ h
    constructor
    · rw [pollPurchaseOrders_received_evs]
      simp [h]
    · have hpost : postState wd (pollPurchaseOrders "received" wd
          (.ok [⟨eid, "PartiallyReceived", u₁⟩])) =
          { wd with purchaseOrderIds := [eid],
                    purchaseOrderStatuses := objSet [] eid "PartiallyReceived" } := by
        simp [postState, pollPurchaseOrders]
      rw [hpost, pollPurchaseOrders_received_evs]
      simp [objGet_objSet]

/-- Witness for `purchaseOrder_received_includes_partial`: the two-cycle
Open → PartiallyReceived → Received run emits once, then nothing. -/
theorem purchaseOrder_received_includes_partial_witness :
    evs (pollPurchaseOrders "received"
        { purchaseOrderStatuses := [("PO1", "Open")] }
        (.ok [⟨"PO1", "PartiallyReceived", none⟩])) =
      [{ event := "purchaseOrder.received",
         data := .item ⟨"PO1", "PartiallyReceived", none⟩ }] ∧
    evs (pollPurchaseOrders "received"
        (postState { purchaseOrderStatuses := [("PO1", "Open")] }
          (pollPurchaseOrders "received"
            { purchaseOrderStatuses := [("PO1", "Open")] }
            (.ok [⟨"PO1", "PartiallyReceived", none⟩])))
        (.ok [⟨"PO1", "Received", none⟩])) = [] :=
  purchaseOrder_received_includes_partial.2
    { purchaseOrderStatuses := [("PO1", "Open")] } "PO1" none none (by decide)

/-- **C1** failing input — for `salesOrder.created` the bootstrap poll
returns `null` but stores the snapshot's ids under `webhookData.knownIds`,
while `pollSalesOrders` reads `webhookData.salesOrderIds`, which stays empty;
the very next cycle therefore re-reports the pre-existing order as created,
exactly the flood the bootstrap is meant to prevent. -/
theorem bootstrap_misses_salesOrder_ids :
    (poll "salesOrder.created" {} {} 100
        { items := .ok [⟨"SO1", "Open", none⟩] }).1 = none ∧
    (poll "salesOrder.created" {} {} 100
        { items := .ok [⟨"SO1", "Open", none⟩] }).2.knownIds = ["SO1"] ∧
    (poll "salesOrder.created" {} {} 100
        { items := .ok [⟨"SO1", "Open", none⟩] }).2.salesOrderIds = [] ∧
    (poll "salesOrder.created" {}
        (poll "salesOrder.created" {} {} 100
          { items := .ok [⟨"SO1", "Open", none⟩] }).2 200
        { items := .ok [⟨"SO1", "Open", none⟩] }).1 =
      some [{ event := "salesOrder.created",
              data := .item ⟨"SO1", "Open", none⟩ }] := by
  decide

/-- **C2** counterexample — with a prior checkpoint stamped `lastPollTime =
50`, a throwing snapshot fetch still rewrites `lastPollTime` to the new
cycle's start, so the checkpoint after the failed cycle is not identical to
the one before it. -/
theorem failed_cycle_rewrites_lastPollTime :
    (poll "product.updated" {} { lastPollTime := some 50, knownIds := ["P1"] }
        100 { items := .throw', inventory := .throw' }).1 = none ∧
    (poll "product.updated" {} { lastPollTime := some 50, knownIds := ["P1"] }
        100 { items := .throw', inventory := .throw' }).2.lastPollTime =
      some 100 ∧
    (poll "product.updated" {} { lastPollTime := some 50, knownIds := ["P1"] }
        100 { items := .throw', inventory := .throw' }).2 ≠
      { lastPollTime := some 50, knownIds := ["P1"] } := by
  decide

/-- **C2** amended — if the snapshot fetch throws during a non-bootstrap
cycle, `poll` returns `null`, no error reaches its caller, and every
checkpoint field except `lastPollTime` is unchanged; `lastPollTime` alone is
unconditionally overwritten with the current cycle's start time. -/
theorem detectChanges_throw (event : String) (opts : Options) (t : Nat)
    (wd : WebhookData) :
    detectChanges event opts t wd { items := .throw', inventory := .throw' } =
      ([], wd) := by
  unfold detectChanges
  dsimp only
  split_ifs <;> rfl

theorem failure_preserves_rest_of_checkpoint (event : String) (opts : Options)
    (wd : WebhookData) (t now : Nat) (h : wd.lastPollTime = some t) :
    poll event opts wd now { items := .throw', inventory := .throw' } =
      (none, { wd with lastPollTime := some now }) := by
  unfold poll
  rw [h]
  dsimp only
  rw [detectChanges_throw]
  simp

/-- Witness for `failure_preserves_rest_of_checkpoint`. -/
theorem failure_preserves_rest_of_checkpoint_witness :
    poll "salesOrder.created" {}
        { lastPollTime := some 7, salesOrderIds := ["A"] } 9
        { items := .throw', inventory := .throw' } =
      (none, { lastPollTime := some 9, salesOrderIds := ["A"] }) := by
  exact failure_preserves_rest_of_checkpoint "salesOrder.created" {}
    { lastPollTime := some 7, salesOrderIds := ["A"] } 7 9 rfl

/-- **C8** counterexample — the unsupported event `customer.created` is not
rejected anywhere: the bootstrap poll and a later poll both quietly return
`null` with no error raised. -/
theorem unsupported_event_quietly_null :
    getEndpointForEvent "customer.created" = none ∧
    poll "customer.created" {} {} 5 { items := .ok [⟨"C1", "", none⟩] } =
      (none, { lastPollTime := some 5 }) ∧
    poll "customer.created" {} { lastPollTime := some 5 } 9
        { items := .ok [⟨"C1", "", none⟩] } =
      (none, { lastPollTime := some 9 }) := by
  decide

/-- **C8** amended — a WatchedEvent whose resource is not among the six the
switch dispatches on is silently ignored rather than rejected: every poll
(bootstrap or not) returns `null` without error and without touching any
tracked state; only `lastPollTime` advances.  No fail-fast setup-time check
exists in the code. -/
theorem unsupported_event_silently_ignored (event : String) (opts : Options)
    (wd : WebhookData) (now : Nat) (env : Env)
    (hres : (splitDot event).headD "" ∉
      (["product", "salesOrder", "purchaseOrder", "stockAdjustment",
        "stockTransfer", "inventory"] : List String))
    (hend : getEndpointForEvent event = none) :
    poll event opts wd now env = (none, { wd with lastPollTime := some now }) := by
  simp only [List.mem_cons, List.not_mem_nil, or_false, not_or] at hres
  obtain ⟨h1, h2, h3, h4, h5, h6⟩ := hres
  unfold poll
  cases hlast : wd.lastPollTime with
  | none =>
    dsimp only
    unfold initializePollingState
    rw [hend]
  | some t =>
    dsimp only
    unfold detectChanges
    dsimp only
    rw [if_neg h1, if_neg h2, if_neg h3, if_neg h4, if_neg h5, if_neg h6]
    simp

/-- Witness for `unsupported_event_silently_ignored`. -/
theorem unsupported_event_silently_ignored_witness :
    poll "customer.deleted" {} { lastPollTime := some 3, knownIds := ["K"] } 8
        { items := .ok [⟨"C2", "", none⟩] } =
      (none, { lastPollTime := some 8, knownIds := ["K"] }) := by
  exact unsupported_event_silently_ignored "customer.deleted" {}
    { lastPollTime := some 3, knownIds := ["K"] } 8
    { items := .ok [⟨"C2", "", none⟩] } (by decide) (by decide)

/-- **C9** counterexample — with both filters configured, the `product`
snapshot fetch carries neither (`{ count: 50 }` only), and even the
`inventory.changed` fetch drops the category filter. -/
theorem filters_not_passed_through :
    detectChangesQuery "product.created"
        { locationId := "LOC1", categoryId := "CAT1" } =
      some { count := some 50, locationId := none, categoryId := none } ∧
    detectChangesQuery "inventory.changed"
        { locationId := "LOC1", categoryId := "CAT1" } =
      some { count := none, locationId := some "LOC1", categoryId := none } := by
  decide

/-- **C9** amended — `categoryId` is declared in the node's options but never
reaches any request; `locationId` is passed through only on the
`inventory.changed` report fetch (when non-empty); every other event's
snapshot fetch carries only `{ count: 50 }`. -/
theorem filter_passthrough_actual :
    (∀ (event : String) (opts : Options) (q : Query),
      detectChangesQuery event opts = some q → q.categoryId = none) ∧
    (∀ opts : Options, opts.locationId ≠ "" →
      detectChangesQuery "inventory.changed" opts =
        some { count := none, locationId := some opts.locationId,
               categoryId := none }) ∧
    (∀ (event : String) (opts : Options),
      (splitDot event).headD "" ∈
        (["product", "salesOrder", "purchaseOrder", "stockAdjustment",
          "stockTransfer"] : List String) →
      detectChangesQuery event opts =
        some { count := some 50, locationId := none, categoryId := none }) := by
  refine ⟨?_, ?_, ?_⟩
  · intro event opts q h
    unfold detectChangesQuery at h
    dsimp only at h
    by_cases hA : (splitDot event).headD "" = "product" ∨
        (splitDot event).headD "" = "salesOrder" ∨
        (splitDot event).headD "" = "purchaseOrder" ∨
        (splitDot event).headD "" = "stockAdjustment" ∨
        (splitDot event).headD "" = "stockTransfer"
    · rw [if_pos hA] at h
      simp only [Option.some.injEq] at h
      rw [← h]
    · rw [if_neg hA] at h
      by_cases hB : (splitDot event).headD "" = "inventory"
      · rw [if_pos hB] at h
        simp only [Option.some.injEq] at h
        rw [← h]
      · rw [if_neg hB] at h
        exact absurd h (by simp)
  · intro opts hloc
    unfold detectChangesQuery
    have hres : (splitDot "inventory.changed").headD "" = "inventory" := by
      decide
    rw [hres]
    simp [hloc]
  · intro event opts h
    unfold detectChangesQuery
    simp only [List.mem_cons, List.not_mem_nil, or_false] at h
    rcases h with h | h | h | h | h <;> rw [h] <;> simp

/-- Witness for `filter_passthrough_actual`. -/
theorem filter_passthrough_actual_witness :
    detectChangesQuery "inventory.changed"
        { locationId := "L7", categoryId := "" } =
      some { count := none, locationId := some "L7", categoryId := none } :=
  filter_passthrough_actual.2.1 { locationId := "L7", categoryId := "" }
    (by decide)

end InFlow

